import Mathlib

/-!
Verification development for the ESP8266_ISR_Servo repository.

The repository ships a single example sketch
(`examples/MultipleRandomServos/MultipleRandomServos.ino`) that drives the
servo engine through its Control Facade (`setupServo`, `setPosition`,
`getPosition`, `getPulseWidth`).  The engine itself (Channel Table, Control
Facade, Pulse Scheduler) is described by the accompanying specification but
its source is not part of the repository snapshot, so the engine is modelled
here from the specification text; the example sketch is embedded from its
source.
-/

namespace ISRServo

/-- Modelled from the spec: one channel of the Channel Table (§3 Data Model).
Fields: output line identifier, calibration bounds `minPulseWidthUs` /
`maxPulseWidthUs` (here `minUs` / `maxUs`), the live `currentPulseWidthUs`
(here `currentUs`), and the `enabled` flag. -/
structure Channel where
  outputLine : Nat
  minUs : Nat
  maxUs : Nat
  currentUs : Nat
  enabled : Bool
deriving Repr, DecidableEq

/-- Fixed capacity of the Channel Table (spec §3: up to N channels, e.g. 16;
the library advertises 16 ISR-based servos). -/
def MAX_SERVOS : Nat := 16

/-- Modelled from the spec: the fixed-capacity Channel Table (§4.1), an
arena of slots where `none` marks a free slot. -/
structure ChannelTable where
  slots : List (Option Channel)
deriving Repr, DecidableEq

/-- The table at startup: all `MAX_SERVOS` slots free. -/
def initTable : ChannelTable := ⟨List.replicate MAX_SERVOS none⟩

/-- Clamp a pulse width into `[lo, hi]`. -/
def clampUs (lo hi v : Nat) : Nat := min hi (max lo v)

/-- Index of the first free slot, if any (spec §9: explicit arena with
free-slot tracking). -/
def firstFreeIdx : List (Option Channel) → Option Nat
  | [] => none
  | none :: _ => some 0
  | some _ :: rest => (firstFreeIdx rest).map (· + 1)

/-- Modelled from the spec: `allocate(outputLine, minUs, maxUs)` (§4.1).
Fails (sentinel `-1`) when `minUs ≥ maxUs` or no free slot exists; otherwise
reserves the free slot, initializes `currentPulseWidthUs` to the midpoint,
marks `enabled = true`, and returns the slot index as the channel id. -/
def allocate (t : ChannelTable) (line minUs maxUs : Nat) : ChannelTable × Int :=
  if maxUs ≤ minUs then (t, -1)
  else
    match firstFreeIdx t.slots with
    | none => (t, -1)
    | some i =>
        (⟨t.slots.set i (some ⟨line, minUs, maxUs, (minUs + maxUs) / 2, true⟩)⟩, (i : Int))

/-- Look up the active channel referred to by a handle; `none` when the
handle is negative, out of range, or refers to a free slot. -/
def getActive (t : ChannelTable) (id : Int) : Option Channel :=
  if id < 0 then none else t.slots.getD id.toNat none

/-- Modelled from the spec: `release(channelId)` (§4.1).  Fails silently
(no-op) if the handle is invalid or the slot already free; otherwise marks
the slot free (hence `enabled = false`: the slot no longer participates). -/
def release (t : ChannelTable) (id : Int) : ChannelTable :=
  match getActive t id with
  | none => t
  | some _ => ⟨t.slots.set id.toNat none⟩

/-- Modelled from the spec: `setPulseWidth(channelId, valueUs)` (§4.1).
Clamps `valueUs` into `[minUs, maxUs]` before storing; returns `false`
(invalid-channel signal) and leaves the table unchanged if the handle does
not refer to an active slot. -/
def setPulseWidth (t : ChannelTable) (id : Int) (valueUs : Nat) : ChannelTable × Bool :=
  match getActive t id with
  | none => (t, false)
  | some c =>
      (⟨t.slots.set id.toNat (some { c with currentUs := clampUs c.minUs c.maxUs valueUs })⟩,
       true)

/-- Modelled from the spec: `readPulseWidth(channelId) -> valueUs | FAILURE`
(§4.1). -/
def readPulseWidth (t : ChannelTable) (id : Int) : Option Nat :=
  (getActive t id).map Channel.currentUs

/-- Clamp an angle in degrees to `[0, 180]` (spec §4.2: angles outside
`[0,180]` are clamped to the nearest bound). -/
def clampAngle (a : Int) : Int := max 0 (min 180 a)

/-- Modelled from the spec: `setPosition(channelId, angleDegrees)` (§4.2).
Clamps the angle into `[0,180]`, maps it linearly onto `[minUs, maxUs]`
(`valueUs = minUs + angleDegrees/180 * (maxUs - minUs)`, integer
microseconds), then calls `setPulseWidth`. -/
def setPosition (t : ChannelTable) (id : Int) (angle : Int) : ChannelTable × Bool :=
  match getActive t id with
  | none => (t, false)
  | some c =>
      let a := (clampAngle angle).toNat
      setPulseWidth t id (c.minUs + a * (c.maxUs - c.minUs) / 180)

/-- Modelled from the spec: `getPosition(channelId) -> angleDegrees` (§4.2),
the inverse of the linear angle-to-pulse-width mapping; sentinel `-1` on an
invalid handle. -/
def getPosition (t : ChannelTable) (id : Int) : Int :=
  match getActive t id with
  | none => -1
  | some c => ((c.currentUs - c.minUs) * 180 / (c.maxUs - c.minUs) : Nat)

/-- Modelled from the spec: `getPulseWidth(channelId)` (§4.2), a direct
passthrough of `readPulseWidth`; sentinel `-1` on an invalid handle. -/
def getPulseWidth (t : ChannelTable) (id : Int) : Int :=
  match readPulseWidth t id with
  | none => -1
  | some v => (v : Int)

/-- Modelled from the spec: `setupServo` (§4.2) delegates to the Channel
Table `allocate` (the additional hardware arming of the output line is not
part of the table state). -/
def setupServo (t : ChannelTable) (line minUs maxUs : Nat) : ChannelTable × Int :=
  allocate t line minUs maxUs

/-- The Control Facade / Channel Table mutating operations, for stating
invariants over arbitrary operation sequences. -/
inductive FacadeOp where
  | alloc (line minUs maxUs : Nat)
  | setPos (id : Int) (angle : Int)
  | setPW (id : Int) (valueUs : Nat)
  | rel (id : Int)
deriving Repr, DecidableEq

/-- Apply one facade operation to the table (discarding the returned
handle/status). -/
def applyOp (t : ChannelTable) : FacadeOp → ChannelTable
  | .alloc line minUs maxUs => (allocate t line minUs maxUs).1
  | .setPos id angle => (setPosition t id angle).1
  | .setPW id valueUs => (setPulseWidth t id valueUs).1
  | .rel id => release t id

/-- Run a sequence of facade operations from a starting table. -/
def runOps (t : ChannelTable) (ops : List FacadeOp) : ChannelTable :=
  ops.foldl applyOp t

/-! ### Pulse Scheduler (ISR core), modelled from spec §4.3 -/

/-- Nominal refresh frame period in microseconds (spec: 20 ms, 50 Hz). -/
def FRAME_PERIOD_US : Nat := 20000

/-- Slot contents at a given index (free slots and out-of-range indices read
as `none`). -/
def slotAt (t : ChannelTable) (i : Nat) : Option Channel := t.slots.getD i none

/-- Whether the slot at index `i` holds an enabled channel. -/
def enabledAt (t : ChannelTable) (i : Nat) : Bool :=
  match slotAt t i with
  | some c => c.enabled
  | none => false

/-- Current pulse width of the channel at index `i` (0 for a free slot). -/
def widthAt (t : ChannelTable) (i : Nat) : Nat :=
  match slotAt t i with
  | some c => c.currentUs
  | none => 0

/-- Output line of the channel at index `i` (0 for a free slot). -/
def lineAt (t : ChannelTable) (i : Nat) : Nat :=
  match slotAt t i with
  | some c => c.outputLine
  | none => 0

/-- Number of enabled channels in the table. -/
def enabledCount (t : ChannelTable) : Nat :=
  t.slots.countP fun oc =>
    match oc with
    | some c => c.enabled
    | none => false

/-- Sum of the pulse widths of all enabled channels (used for the idle-gap
computation, spec §4.3 step 2). -/
def sumEnabledWidths (t : ChannelTable) : Nat :=
  (t.slots.map fun oc =>
    match oc with
    | some c => if c.enabled then c.currentUs else 0
    | none => 0).sum

/-- Index of the first enabled channel at slot `start` or later, if any
(cursor advance, spec §4.3). -/
def nextEnabledFrom (t : ChannelTable) (start : Nat) : Option Nat :=
  (List.range t.slots.length).find? fun i => decide (start ≤ i) && enabledAt t i

/-- Scheduler cursor: either a channel's pulse is in flight (its line is
high) or the engine is in the inter-frame idle gap. -/
inductive SchedPhase where
  | idleGap : SchedPhase
  | pulse (idx : Nat) : SchedPhase
deriving Repr, DecidableEq

/-- One commanded transition on a physical output line. -/
structure PinTransition where
  line : Nat
  high : Bool
deriving Repr, DecidableEq

/-- Result of one timer firing: the next cursor phase, the pin transitions
performed during the firing, and the delay (µs) for which the timer is
rearmed. -/
structure SchedOutcome where
  next : SchedPhase
  transitions : List PinTransition
  rearmDelayUs : Nat
deriving Repr, DecidableEq

/-- Modelled from the spec: one timer firing of the Pulse Scheduler
(§4.3 steps 1–3).  A total function: each firing completes without
blocking.  From the idle gap it starts the first enabled channel's pulse
(or schedules another idle frame when zero channels are enabled); from an
in-flight pulse it drives that line low, then either starts the next
enabled channel's pulse or schedules the remaining idle time of the frame. -/
def fire (t : ChannelTable) : SchedPhase → SchedOutcome
  | .idleGap =>
      match nextEnabledFrom t 0 with
      | none => ⟨.idleGap, [], FRAME_PERIOD_US⟩
      | some j => ⟨.pulse j, [⟨lineAt t j, true⟩], widthAt t j⟩
  | .pulse i =>
      match nextEnabledFrom t (i + 1) with
      | none => ⟨.idleGap, [⟨lineAt t i, false⟩], FRAME_PERIOD_US - sumEnabledWidths t⟩
      | some j => ⟨.pulse j, [⟨lineAt t i, false⟩, ⟨lineAt t j, true⟩], widthAt t j⟩

/-- Scheduler states reachable, for a given table, from the initial
inter-frame idle state by repeated timer firings. -/
inductive Reachable (t : ChannelTable) : SchedPhase → Prop where
  | init : Reachable t .idleGap
  | step (s : SchedPhase) : Reachable t s → Reachable t (fire t s).next

/-! ### The example sketch `MultipleRandomServos.ino`, embedded from source -/

namespace Example

/-- Published SG90 minimum pulse width used by the sketch. -/
def MIN_MICROS : Nat := 800

/-- Published SG90 maximum pulse width used by the sketch. -/
def MAX_MICROS : Nat := 2450

/-- Number of servos driven by the sketch. -/
def NUM_SERVOS : Nat := 6

/-- Board pin alias D0 (NodeMCU GPIO number; the concrete value is
irrelevant to the claims). -/
def D0 : Nat := 16

/-- Board pin alias D1. -/
def D1 : Nat := 5

/-- Board pin alias D2. -/
def D2 : Nat := 4

/-- Board pin alias D5. -/
def D5 : Nat := 14

/-- Board pin alias D6. -/
def D6 : Nat := 12

/-- Board pin alias D7. -/
def D7 : Nat := 13

/-- The sketch's per-servo record: the handle returned by `setupServo`
(initialized to `-1`) and the servo's output pin. -/
structure ISR_servo_t where
  servoIndex : Int
  servoPin : Nat
deriving Repr, DecidableEq

/-- Initial contents of the sketch's `ISR_servo` table: every `servoIndex`
is `-1`. -/
def ISR_servo : List ISR_servo_t :=
  [⟨-1, D0⟩, ⟨-1, D1⟩, ⟨-1, D2⟩, ⟨-1, D5⟩, ⟨-1, D6⟩, ⟨-1, D7⟩]

/-- One iteration of the sketch's `setup` loop: register the servo and
overwrite its `servoIndex` with the handle `setupServo` returned.  The
state also accumulates the list of all handles returned so far. -/
def setupStep (st : ChannelTable × List ISR_servo_t × List Int) (e : ISR_servo_t) :
    ChannelTable × List ISR_servo_t × List Int :=
  let r := setupServo st.1 e.servoPin MIN_MICROS MAX_MICROS
  (r.1, st.2.1 ++ [{ e with servoIndex := r.2 }], st.2.2 ++ [r.2])

/-- The engine table, the sketch's `ISR_servo` table, and the list of
returned handles after the sketch's `setup` has run. -/
def setupResult : ChannelTable × List ISR_servo_t × List Int :=
  ISR_servo.foldl setupStep (initTable, [], [])

/-- Angle written by the sketch's two offset-sweep loops:
`(position + index * (180 / NUM_SERVOS)) % 180` in C integer arithmetic
(both operands nonnegative, so `%` agrees with `Int.emod`). -/
def sweepAngle (position index : Int) : Int :=
  (position + index * (180 / (NUM_SERVOS : Int))) % 180

end Example

/-- Well-formedness of an allocated channel: valid bounds and a clamped
current pulse width (spec §3 invariants). -/
def chanWF (c : Channel) : Prop :=
  c.minUs < c.maxUs ∧ c.minUs ≤ c.currentUs ∧ c.currentUs ≤ c.maxUs

/-- Well-formedness of the whole Channel Table: every occupied slot holds a
well-formed channel. -/
def tableWF (t : ChannelTable) : Prop :=
  ∀ c : Channel, some c ∈ t.slots → chanWF c

/-- A table whose 16 slots are all occupied, to exercise the failing 17th
allocation. -/
def fullTable : ChannelTable :=
  runOps initTable (List.replicate MAX_SERVOS (FacadeOp.alloc 1 800 2450))

/-- The table of the four-channel scenario of spec §8: four channels with
bounds 800/2450, channels 0, 1, 2 set to 0°, 90°, 180°, channel 3 left at
its initial midpoint. -/
def scenarioTable : ChannelTable :=
  runOps initTable
    [.alloc Example.D0 800 2450, .alloc Example.D1 800 2450,
     .alloc Example.D2 800 2450, .alloc Example.D5 800 2450,
     .setPos 0 0, .setPos 1 90, .setPos 2 180]

/-! ### Helper lemmas -/

theorem firstFreeIdx_eq_none_iff (l : List (Option Channel)) :
    firstFreeIdx l = none ↔ ∀ oc ∈ l, oc ≠ none := by
  induction l with
  | nil => simp [firstFreeIdx]
  | cons hd tl ih =>
    cases hd with
    | none => simp [firstFreeIdx]
    | some c => simp [firstFreeIdx, Option.map_eq_none', ih]

theorem firstFreeIdx_some (l : List (Option Channel)) (i : Nat)
    (h : firstFreeIdx l = some i) : i < l.length ∧ l[i]? = some none := by
  induction l generalizing i with
  | nil => simp [firstFreeIdx] at h
  | cons hd tl ih =>
    cases hd with
    | none =>
      simp [firstFreeIdx] at h
      subst h
      simp
    | some c =>
      simp only [firstFreeIdx, Option.map_eq_some'] at h
      obtain ⟨j, hj, hi⟩ := h
      obtain ⟨h1, h2⟩ := ih j hj
      subst hi
      simp only [List.length_cons, List.getElem?_cons_succ]
      exact ⟨by omega, h2⟩

theorem getActive_eq_some_iff (t : ChannelTable) (id : Int) (c : Channel) :
    getActive t id = some c ↔ 0 ≤ id ∧ t.slots[id.toNat]? = some (some c) := by
  unfold getActive
  rw [List.getD_eq_getElem?_getD]
  split
  · rename_i hlt
    simp only [false_iff, reduceCtorEq]
    intro h
    omega
  · rename_i hlt
    cases hx : t.slots[id.toNat]? with
    | none => simp [hx]
    | some oc =>
      cases oc with
      | none => simp [hx]
      | some c2 => simp [hx, show (0:Int) ≤ id by omega]

theorem getActive_set_self (t : ChannelTable) (id : Int) (c : Channel)
    (h0 : 0 ≤ id) (hlt : id.toNat < t.slots.length) :
    getActive ⟨t.slots.set id.toNat (some c)⟩ id = some c := by
  unfold getActive
  rw [if_neg (by omega), List.getD_eq_getElem?_getD, List.getElem?_set_self hlt]
  rfl

theorem tableWF_init : tableWF initTable := by
  intro c hc
  simp [initTable, List.mem_replicate] at hc

theorem tableWF_set (t : ChannelTable) (n : Nat) (oc : Option Channel)
    (ht : tableWF t) (hoc : ∀ c, oc = some c → chanWF c) :
    tableWF ⟨t.slots.set n oc⟩ := by
  intro c hc
  rcases List.mem_or_eq_of_mem_set hc with h | h
  · exact ht c h
  · exact hoc c h.symm

theorem tableWF_allocate (t : ChannelTable) (line minUs maxUs : Nat) (ht : tableWF t) :
    tableWF (allocate t line minUs maxUs).1 := by
  unfold allocate
  split
  · exact ht
  · rename_i hle
    cases hf : firstFreeIdx t.slots with
    | none => exact ht
    | some i =>
      apply tableWF_set t _ _ ht
      intro c hc
      injection hc with h
      subst h
      have h1 : minUs < maxUs := by omega
      have h2 : minUs ≤ (minUs + maxUs) / 2 := by omega
      have h3 : (minUs + maxUs) / 2 ≤ maxUs := by omega
      exact ⟨h1, h2, h3⟩

theorem tableWF_setPulseWidth (t : ChannelTable) (id : Int) (v : Nat) (ht : tableWF t) :
    tableWF (setPulseWidth t id v).1 := by
  unfold setPulseWidth
  cases hx : getActive t id with
  | none => exact ht
  | some c =>
    apply tableWF_set t _ _ ht
    intro c2 hc2
    injection hc2 with h
    subst h
    have hmem : some c ∈ t.slots :=
      List.mem_iff_getElem?.2 ⟨id.toNat, ((getActive_eq_some_iff t id c).1 hx).2⟩
    have hcwf := ht c hmem
    simp only [chanWF, clampUs] at hcwf ⊢
    omega

theorem tableWF_setPosition (t : ChannelTable) (id a : Int) (ht : tableWF t) :
    tableWF (setPosition t id a).1 := by
  unfold setPosition
  cases hx : getActive t id with
  | none => exact ht
  | some c => exact tableWF_setPulseWidth t id _ ht

theorem tableWF_release (t : ChannelTable) (id : Int) (ht : tableWF t) :
    tableWF (release t id) := by
  unfold release
  cases hx : getActive t id with
  | none => exact ht
  | some c =>
    apply tableWF_set t _ _ ht
    intro c2 hc2
    exact Option.noConfusion hc2

theorem tableWF_applyOp (t : ChannelTable) (ht : tableWF t) (op : FacadeOp) :
    tableWF (applyOp t op) := by
  cases op with
  | alloc line minUs maxUs => exact tableWF_allocate t line minUs maxUs ht
  | setPos id angle => exact tableWF_setPosition t id angle ht
  | setPW id v => exact tableWF_setPulseWidth t id v ht
  | rel id => exact tableWF_release t id ht

theorem tableWF_runOps (t : ChannelTable) (ht : tableWF t) (ops : List FacadeOp) :
    tableWF (runOps t ops) := by
  induction ops generalizing t with
  | nil => exact ht
  | cons op rest ih => exact ih (applyOp t op) (tableWF_applyOp t ht op)

theorem allocate_fail_iff (t : ChannelTable) (line minUs maxUs : Nat) :
    (allocate t line minUs maxUs).2 = -1 ↔ maxUs ≤ minUs ∨ ∀ oc ∈ t.slots, oc ≠ none := by
  unfold allocate
  split
  · rename_i h
    simp [h]
  · rename_i h
    cases hf : firstFreeIdx t.slots with
    | none =>
      have hall := (firstFreeIdx_eq_none_iff t.slots).1 hf
      simp [h]
      exact hall
    | some i =>
      have h2 := (firstFreeIdx_some t.slots i hf).2
      have hmem : (none : Option Channel) ∈ t.slots := List.mem_iff_getElem?.2 ⟨i, h2⟩
      constructor
      · intro hi
        exfalso
        simp at hi
      · rintro (h3 | h3)
        · omega
        · exact absurd rfl (h3 none hmem)

theorem allocate_success (t : ChannelTable) (line minUs maxUs : Nat) (i : Nat)
    (h : (allocate t line minUs maxUs).2 = (i : Int)) :
    minUs < maxUs ∧ i < t.slots.length ∧ t.slots[i]? = some none ∧
      (allocate t line minUs maxUs).1.slots[i]? =
        some (some ⟨line, minUs, maxUs, (minUs + maxUs) / 2, true⟩) := by
  unfold allocate at h ⊢
  by_cases hle : maxUs ≤ minUs
  · rw [if_pos hle] at h
    simp at h
  · rw [if_neg hle] at h ⊢
    cases hf : firstFreeIdx t.slots with
    | none =>
      rw [hf] at h
      simp at h
    | some j =>
      rw [hf] at h
      simp only [Nat.cast_inj] at h
      subst h
      obtain ⟨h1, h2⟩ := firstFreeIdx_some t.slots j hf
      refine ⟨by omega, h1, h2, ?_⟩
      show (t.slots.set j
        (some ⟨line, minUs, maxUs, (minUs + maxUs) / 2, true⟩))[j]? = _
      rw [List.getElem?_set_self h1]

theorem enabledAt_eq_false (t : ChannelTable) (h : enabledCount t = 0) (i : Nat) :
    enabledAt t i = false := by
  unfold enabledAt slotAt
  rw [List.getD_eq_getElem?_getD]
  cases hx : t.slots[i]? with
  | none => rfl
  | some oc =>
    cases oc with
    | none => rfl
    | some c =>
      have hmem : some c ∈ t.slots := List.mem_iff_getElem?.2 ⟨i, hx⟩
      have := List.countP_eq_zero.1 h (some c) hmem
      simpa using this

theorem nextEnabledFrom_eq_none (t : ChannelTable) (h : enabledCount t = 0) (start : Nat) :
    nextEnabledFrom t start = none := by
  unfold nextEnabledFrom
  rw [List.find?_eq_none]
  intro i hi
  simp [enabledAt_eq_false t h i]

theorem reachable_idle (t : ChannelTable) (h : enabledCount t = 0) (s : SchedPhase)
    (hs : Reachable t s) : s = .idleGap := by
  induction hs with
  | init => rfl
  | step s2 hs2 ih =>
    subst ih
    simp [fire, nextEnabledFrom_eq_none t h 0]

theorem map_roundtrip_bounds (a d : Nat) (hd : 180 ≤ d) :
    a * d / 180 * 180 / d ≤ a ∧ a - 1 ≤ a * d / 180 * 180 / d := by
  have hd0 : 0 < d := by omega
  constructor
  · calc a * d / 180 * 180 / d ≤ a * d / d :=
        Nat.div_le_div_right (Nat.div_mul_le_self _ _)
      _ = a := Nat.mul_div_cancel a hd0
  · rcases Nat.eq_zero_or_pos a with h0 | h0
    · simp [h0]
    · rw [Nat.le_div_iff_mul_le hd0]
      have h1 : (a - 1) * d = a * d - 1 * d := Nat.sub_mul a 1 d
      have h2 : d ≤ a * d := Nat.le_mul_of_pos_left d h0
      have h3 := Nat.div_add_mod (a * d) 180
      have h4 : a * d % 180 < 180 := Nat.mod_lt _ (by norm_num)
      omega

/-! ### Claim theorems -/

/-- Claim C1: for every sequence of Control Facade / Channel Table
operations run from the startup table, every allocated channel's
`currentPulseWidthUs` lies within `[minPulseWidthUs, maxPulseWidthUs]`
(every operation that stores a pulse width clamps it into that range
first). -/
theorem currentPulseWidth_always_in_range (ops : List FacadeOp) (c : Channel)
    (h : some c ∈ (runOps initTable ops).slots) :
    c.minUs ≤ c.currentUs ∧ c.currentUs ≤ c.maxUs :=
  ⟨(tableWF_runOps initTable tableWF_init ops c h).2.1,
   (tableWF_runOps initTable tableWF_init ops c h).2.2⟩

theorem currentPulseWidth_always_in_range_witness : 800 ≤ 2450 ∧ 2450 ≤ 2450 :=
  currentPulseWidth_always_in_range
    [FacadeOp.alloc 1 800 2450, FacadeOp.setPW 0 5000]
    ⟨1, 800, 2450, 2450, true⟩ (by decide)

/-- Claim C2 (counterexample to the claim as stated): for a channel whose
calibration range is narrower than 180 µs (here 800–900 µs, which
`allocate` accepts), the integer round trip is off by more than one unit:
`setPosition` to 7° followed by `getPosition` returns 5°. -/
theorem setPosition_getPosition_roundtrip_counterexample :
    getActive (allocate initTable 0 800 900).1 0 = some ⟨0, 800, 900, 850, true⟩ ∧
    (0 : Int) ≤ 7 ∧ (7 : Int) ≤ 180 ∧
    1 < (getPosition (setPosition (allocate initTable 0 800 900).1 0 7).1 0 - 7).natAbs := by
  decide

/-- Claim C2 (amended): for every active channel whose calibration range
spans at least 180 µs, and every angle in `[0, 180]`, `setPosition` then
`getPosition` returns the angle within one unit of rounding error. -/
theorem setPosition_getPosition_roundtrip (t : ChannelTable) (id : Int) (c : Channel)
    (a : Int) (hc : getActive t id = some c) (hd : 180 ≤ c.maxUs - c.minUs)
    (ha0 : 0 ≤ a) (ha1 : a ≤ 180) :
    (getPosition (setPosition t id a).1 id - a).natAbs ≤ 1 := by
  obtain ⟨h0, hget⟩ := (getActive_eq_some_iff t id c).1 hc
  have hlt : id.toNat < t.slots.length := (List.getElem?_eq_some_iff.1 hget).1
  have hca : clampAngle a = a := by unfold clampAngle; omega
  have han : ((a.toNat : Int)) = a := Int.toNat_of_nonneg ha0
  have hale : a.toNat ≤ 180 := by omega
  have hwle : a.toNat * (c.maxUs - c.minUs) / 180 ≤ c.maxUs - c.minUs := by
    calc a.toNat * (c.maxUs - c.minUs) / 180
        ≤ 180 * (c.maxUs - c.minUs) / 180 :=
          Nat.div_le_div_right (Nat.mul_le_mul_right _ hale)
      _ = c.maxUs - c.minUs := Nat.mul_div_cancel_left _ (by norm_num)
  have hclamp : clampUs c.minUs c.maxUs (c.minUs + a.toNat * (c.maxUs - c.minUs) / 180)
      = c.minUs + a.toNat * (c.maxUs - c.minUs) / 180 := by
    unfold clampUs
    omega
  have hstep : (setPosition t id a).1 =
      ⟨t.slots.set id.toNat
        (some { c with currentUs := c.minUs + a.toNat * (c.maxUs - c.minUs) / 180 })⟩ := by
    unfold setPosition
    rw [hc]
    simp only [hca]
    unfold setPulseWidth
    rw [hc]
    show ChannelTable.mk (t.slots.set id.toNat (some (Channel.mk c.outputLine c.minUs c.maxUs (clampUs c.minUs c.maxUs (c.minUs + a.toNat * (c.maxUs - c.minUs) / 180)) c.enabled))) = _
    rw [hclamp]
  have hget2 : getActive (setPosition t id a).1 id =
      some { c with currentUs := c.minUs + a.toNat * (c.maxUs - c.minUs) / 180 } := by
    rw [hstep]
    exact getActive_set_self t id _ h0 hlt
  have hgp : getPosition (setPosition t id a).1 id =
      ((a.toNat * (c.maxUs - c.minUs) / 180 * 180 / (c.maxUs - c.minUs) : Nat) : Int) := by
    unfold getPosition
    rw [hget2]
    simp [Nat.add_sub_cancel_left]
  rw [hgp]
  have hb := map_roundtrip_bounds a.toNat (c.maxUs - c.minUs) hd
  omega

theorem setPosition_getPosition_roundtrip_witness :
    (getPosition (setPosition (allocate initTable 0 800 2450).1 0 90).1 0 - 90).natAbs ≤ 1 :=
  setPosition_getPosition_roundtrip (allocate initTable 0 800 2450).1 0
    ⟨0, 800, 2450, 1625, true⟩ 90 (by decide) (by decide) (by decide) (by decide)

/-- Claim C3: `allocate` returns the failure sentinel `-1` if and only if
no free slot exists or `minUs ≥ maxUs`; on success it reserves a free slot,
sets `currentPulseWidthUs` to the midpoint, sets `enabled = true`, and
returns a valid channel id; `setupServo` surfaces the same result. -/
theorem allocate_spec (t : ChannelTable) (line minUs maxUs : Nat) :
    ((allocate t line minUs maxUs).2 = -1 ↔ maxUs ≤ minUs ∨ ∀ oc ∈ t.slots, oc ≠ none)
    ∧ (∀ i : Nat, (allocate t line minUs maxUs).2 = (i : Int) →
        minUs < maxUs ∧ i < t.slots.length ∧ t.slots[i]? = some none ∧
          (allocate t line minUs maxUs).1.slots[i]? =
            some (some ⟨line, minUs, maxUs, (minUs + maxUs) / 2, true⟩))
    ∧ setupServo t line minUs maxUs = allocate t line minUs maxUs :=
  ⟨allocate_fail_iff t line minUs maxUs,
   fun i h => allocate_success t line minUs maxUs i h, rfl⟩

theorem allocate_spec_witness :
    800 < 2450 ∧ 0 < initTable.slots.length ∧ initTable.slots[0]? = some none ∧
      (allocate initTable 3 800 2450).1.slots[0]? =
        some (some ⟨3, 800, 2450, 1625, true⟩) :=
  (allocate_spec initTable 3 800 2450).2.1 0 (by decide)

/-- Claim C4: every failing engine operation (allocation with no free slot
or bad bounds, and any accessor or mutator called with an invalid handle)
returns its sentinel failure value and leaves the entire Channel Table
unchanged. -/
theorem error_sentinel_preserves_table (t : ChannelTable) (id : Int)
    (line minUs maxUs valueUs : Nat) (angle : Int) :
    ((allocate t line minUs maxUs).2 = -1 → (allocate t line minUs maxUs).1 = t)
    ∧ (getActive t id = none →
        (setPulseWidth t id valueUs).1 = t ∧ (setPulseWidth t id valueUs).2 = false ∧
        (setPosition t id angle).1 = t ∧ (setPosition t id angle).2 = false ∧
        release t id = t ∧ readPulseWidth t id = none ∧
        getPulseWidth t id = -1 ∧ getPosition t id = -1) := by
  constructor
  · intro h
    by_cases hle : maxUs ≤ minUs
    · rw [allocate, if_pos hle]
    · rw [allocate, if_neg hle] at h ⊢
      cases hf : firstFreeIdx t.slots with
      | none => rfl
      | some i =>
        rw [hf] at h
        simp at h
  · intro h
    refine ⟨?_, ?_, ?_, ?_, ?_, ?_, ?_, ?_⟩ <;>
      simp [setPulseWidth, setPosition, release, readPulseWidth, getPulseWidth, getPosition, h]

theorem error_sentinel_preserves_table_witness :
    (allocate fullTable 2 800 2450).1 = fullTable ∧
    (setPulseWidth fullTable (-1) 1000).1 = fullTable :=
  ⟨(error_sentinel_preserves_table fullTable (-1) 2 800 2450 1000 0).1 (by decide),
   ((error_sentinel_preserves_table fullTable (-1) 2 800 2450 1000 0).2 (by decide)).1⟩

/-- Claim C5: `setPosition` clamps out-of-range angles to the nearest bound
before mapping: an angle of `-10` produces exactly the same result as `0`,
and `200` the same as `180`, on every table and handle. -/
theorem setPosition_clamps_out_of_range (t : ChannelTable) (id : Int) :
    setPosition t id (-10) = setPosition t id 0 ∧
    setPosition t id 200 = setPosition t id 180 := by
  constructor <;>
  · unfold setPosition
    cases getActive t id <;> norm_num [clampAngle]

/-- Claim C6: with four channels registered with bounds 800/2450 and
channels 0, 1, 2 set to 0°, 90°, 180° (channel 3 left unset), the pulse
widths read back are 800, 1625, 2450, 1625 µs and the positions read back
are 0, 90, 180, 90 degrees. -/
theorem scenario_four_channels :
    getPulseWidth scenarioTable 0 = 800 ∧ getPulseWidth scenarioTable 1 = 1625 ∧
    getPulseWidth scenarioTable 2 = 2450 ∧ getPulseWidth scenarioTable 3 = 1625 ∧
    getPosition scenarioTable 0 = 0 ∧ getPosition scenarioTable 1 = 90 ∧
    getPosition scenarioTable 2 = 180 ∧ getPosition scenarioTable 3 = 90 := by
  decide

/-- Claim C7: `release` on an invalid or already-free handle is a no-op,
and an allocation performed after a release reserves a slot that is free at
allocation time and starts the new channel at the midpoint of its own
bounds (never the previous occupant's leftover pulse width). -/
theorem release_then_reallocate (t : ChannelTable) (id : Int) (line minUs maxUs : Nat) :
    (getActive t id = none → release t id = t)
    ∧ ∀ i : Nat, (allocate (release t id) line minUs maxUs).2 = (i : Int) →
        (release t id).slots[i]? = some none ∧
        (allocate (release t id) line minUs maxUs).1.slots[i]? =
          some (some ⟨line, minUs, maxUs, (minUs + maxUs) / 2, true⟩) := by
  constructor
  · intro h
    unfold release
    rw [h]
  · intro i h
    have hs := allocate_success (release t id) line minUs maxUs i h
    exact ⟨hs.2.2.1, hs.2.2.2⟩

theorem release_then_reallocate_witness :
    (release (allocate initTable 3 1000 2000).1 0).slots[0]? = some none ∧
    (allocate (release (allocate initTable 3 1000 2000).1 0) 4 800 2450).1.slots[0]? =
      some (some ⟨4, 800, 2450, 1625, true⟩) :=
  (release_then_reallocate (allocate initTable 3 1000 2000).1 0 4 800 2450).2 0 (by decide)

/-- Claim C8: in every state of the Pulse Scheduler reachable by timer
firings over a table with zero enabled channels, a firing performs no pin
transitions and rearms the timer for the nominal frame period (`fire` is a
total function, so no firing ever blocks). -/
theorem idle_frame_when_no_channel_enabled (t : ChannelTable)
    (h : enabledCount t = 0) (s : SchedPhase) (hs : Reachable t s) :
    (fire t s).transitions = [] ∧ (fire t s).rearmDelayUs = FRAME_PERIOD_US := by
  have hidle := reachable_idle t h s hs
  subst hidle
  simp [fire, nextEnabledFrom_eq_none t h 0]

theorem idle_frame_when_no_channel_enabled_witness :
    (fire initTable SchedPhase.idleGap).transitions = [] ∧
    (fire initTable SchedPhase.idleGap).rearmDelayUs = FRAME_PERIOD_US :=
  idle_frame_when_no_channel_enabled initTable (by decide) SchedPhase.idleGap Reachable.init

/-- Claim C9: in the example's two offset-sweep loops, for every position
in `[0, 180]` and every index in `[0, 6)`, the angle argument
`(position + index * (180 / NUM_SERVOS)) % 180` lies in `[0, 179]`, so
`setPosition`'s angle clamping is never exercised by these sweeps. -/
theorem sweep_angle_in_range (p i : Int) (_hp0 : 0 ≤ p) (_hp1 : p ≤ 180)
    (_hi0 : 0 ≤ i) (_hi1 : i < 6) :
    0 ≤ Example.sweepAngle p i ∧ Example.sweepAngle p i ≤ 179 ∧
      clampAngle (Example.sweepAngle p i) = Example.sweepAngle p i := by
  have h1 : (0 : Int) ≤ (p + i * (180 / (Example.NUM_SERVOS : Int))) % 180 :=
    Int.emod_nonneg _ (by norm_num)
  have h2 : (p + i * (180 / (Example.NUM_SERVOS : Int))) % 180 < 180 :=
    Int.emod_lt_of_pos _ (by norm_num)
  unfold Example.sweepAngle clampAngle
  omega

theorem sweep_angle_in_range_witness :
    0 ≤ Example.sweepAngle 180 5 ∧ Example.sweepAngle 180 5 ≤ 179 ∧
      clampAngle (Example.sweepAngle 180 5) = Example.sweepAngle 180 5 :=
  sweep_angle_in_range 180 5 (by decide) (by decide) (by decide) (by decide)

/-- Claim C10: every `servoIndex` field of the example's `ISR_servo` table
starts as `-1`, and after `setup` has run, every `servoIndex` the loops
pass to `setPosition` / `getPosition` / `getPulseWidth` is either the
sentinel `-1` or a handle returned by one of the `setupServo` calls. -/
theorem servoIndex_only_from_setupServo :
    (Example.ISR_servo.all fun e => e.servoIndex == -1) = true ∧
    (Example.setupResult.2.1.all fun e =>
      e.servoIndex == -1 || Example.setupResult.2.2.contains e.servoIndex) = true := by
  decide

end ISRServo
